import Mathlib

/-!
Verification development for the ConfigData registry, client and merge code of
this repository (registry strategy in pkg/registry/configdata, etcd-backed REST
storage in pkg/registry/configdata/etcd, typed clients in pkg/client/unversioned,
and the rkt CLI configuration merge helper).

Conventions of the shallow embedding:
* Go string maps become association lists, List (String × String).
* ObjectMeta.ResourceVersion is an uninterpreted decimal string assigned from the
  monotone etcd index; it is embedded as a Nat, with 0 standing for the empty
  (unset) string, so that version comparison and strict growth are expressible.
* Fallible operations return a Store paired with Except KErr so that the state
  visible after a failed call is explicit (an error leaves the store untouched).
-/

/-- Error taxonomy of the registry, from pkg/api/errors as used by this code:
NewNotFound, NewAlreadyExists, NewConflict, NewInvalid, and the ServerTimeout
(try again later) error produced by rest.CheckGeneratedNameError. -/
inductive KErr where
  | notFound
  | alreadyExists
  | conflict
  | invalid
  | serverTimeout
deriving DecidableEq, Repr

/-- Embedding of the ConfigData API object (proposal docs and both strategy
files): ObjectMeta fields used by this code plus the Data map.
The Go Namespace field is called nspace because namespace is a Lean keyword;
resourceVersion 0 encodes the empty (unset) Go string. -/
structure ConfigData where
  name : String
  nspace : String
  generateName : String
  resourceVersion : Nat
  labels : List (String × String)
  data : List (String × String)
deriving DecidableEq, Repr

/-- Character class of the allowed data-key pattern: alphanumeric plus dot,
underscore and dash. -/
def isAllowedKeyChar (c : Char) : Bool :=
  c.isAlphanum || c = '.' || c = '_' || c = '-'

/-- Modelled from the spec: the key-naming invariant of section 3 (validation of
data keys, the validation package pkg/apis/extensions/validation is not under
src/): a data key must be nonempty and consist only of alphanumerics, dot,
underscore and dash. -/
def isValidConfigKey (k : String) : Bool :=
  !k.toList.isEmpty && k.toList.all isAllowedKeyChar

/-- Lowercase alphanumeric character, the interior alphabet of a DNS label. -/
def isLowerAlnum (c : Char) : Bool :=
  c.isLower || c.isDigit

/-- Modelled from the spec: DNS-label-style validation of name and namespace
(section 4.1; the shared validation helpers are not under src/): nonempty, at
most 63 characters, lowercase alphanumerics and dashes, starting and ending
with an alphanumeric. -/
def isDNSLabel (s : String) : Bool :=
  let cs := s.toList
  !cs.isEmpty && s.length ≤ 63 &&
    cs.all (fun c => isLowerAlnum c || c = '-') &&
    (match cs.head? with | some c => isLowerAlnum c | none => false) &&
    (match cs.getLast? with | some c => isLowerAlnum c | none => false)

/-- Modelled from the spec: validation.ValidateConfigData (referenced from both
strategy files but not itself under src/). Per the spec it returns a field-level
Invalid error for a name or namespace failing DNS-label-style validation and for
every empty or pattern-violating data key; a conforming object yields an empty
error list. Errors are represented by their field descriptions. -/
def ValidateConfigData (cfg : ConfigData) : List String :=
  (if isDNSLabel cfg.name then [] else ["metadata.name"]) ++
  (if isDNSLabel cfg.nspace then [] else ["metadata.namespace"]) ++
  cfg.data.filterMap
    (fun kv => if isValidConfigKey kv.1 then none else some ("data." ++ kv.1))

namespace strategy

/-- Embedding of strategy.NamespaceScoped (part_000 line 52, part_005 line 49):
returns true. -/
def NamespaceScoped : Bool := true

/-- Embedding of strategy.AllowCreateOnUpdate (part_000 line 72, part_005
line 67): returns false. -/
def AllowCreateOnUpdate : Bool := false

/-- Embedding of strategy.AllowUnconditionalUpdate (part_000 line 68, part_005
line 76): returns true. -/
def AllowUnconditionalUpdate : Bool := true

/-- Embedding of strategy.PrepareForCreate of the extensions strategy
(part_005 lines 53-55): the body only type-asserts the object and changes
nothing, so it is the identity. -/
def PrepareForCreate (cfg : ConfigData) : ConfigData := cfg

/-- Embedding of strategy.PrepareForCreate of the experimental strategy
(part_000 lines 56-60): the body executes cfg.Data = make(map[string]string),
replacing the caller-supplied Data map with a fresh empty map. -/
def experimentalPrepareForCreate (cfg : ConfigData) : ConfigData :=
  { cfg with data := [] }

/-- Embedding of strategy.Validate (part_005 lines 57-61): delegates to
validation.ValidateConfigData on the object. -/
def Validate (cfg : ConfigData) : List String :=
  ValidateConfigData cfg

/-- Embedding of strategy.ValidateUpdate of the extensions strategy (part_005
lines 80-84): type-asserts the new object and delegates to
validation.ValidateConfigData on the new object alone; the old object is not
consulted. -/
def ValidateUpdate (newCfg oldCfg : ConfigData) : List String :=
  ValidateConfigData newCfg

/-- Embedding of strategy.PrepareForUpdate (part_005 lines 71-74): only
type-asserts both objects, changing nothing. -/
def PrepareForUpdate (newCfg oldCfg : ConfigData) : ConfigData := newCfg

end strategy

/-- Embedding of generic.ObjectMetaFieldsSet as called by SelectableFields
(part_005 line 88) with hasName = true. Modelled from the spec: the generic
registry package is not under src/; the derived field set of an object consists
of its identity metadata fields. -/
def ObjectMetaFieldsSet (cfg : ConfigData) : List (String × String) :=
  [("metadata.name", cfg.name), ("metadata.namespace", cfg.nspace)]

/-- Embedding of SelectableFields of the extensions strategy (part_005 lines
87-89): the field set representing the object for matching purposes. -/
def SelectableFields (cfg : ConfigData) : List (String × String) :=
  ObjectMetaFieldsSet cfg

/-- A label or field selector, modelled from the spec (the labels and fields
selector packages are not under src/): a list of required key = value pairs;
a selector matches a set when every required pair is present in the set. -/
def Selector : Type := List (String × String)

/-- Decides whether a selector accepts a given attribute set. -/
def selectorMatches (sel : Selector) (attrs : List (String × String)) : Bool :=
  sel.all (fun kv => attrs.lookup kv.1 = some kv.2)

/-- Embedding of the per-object predicate built by Match (part_005 lines
92-105): the generic.SelectionPredicate matches an object when its labels
satisfy the label selector and SelectableFields of the object satisfies the
field selector. The generic SelectionPredicate.Matches loop itself is modelled
from the spec (not under src/); GetAttrs is embedded from part_005. -/
def matchConfigData (label field : Selector) (cfg : ConfigData) : Bool :=
  selectorMatches label cfg.labels && selectorMatches field (SelectableFields cfg)

/-- Watch event tags of the watch package as delivered by the registry:
ADDED, MODIFIED, DELETED. -/
inductive EventType where
  | added
  | modified
  | deleted
deriving DecidableEq, Repr

/-- One entry of the ordered watch event log: the tag an event carries and the
resourceVersion assigned to the mutation that produced it. -/
structure WatchEvent where
  etype : EventType
  version : Nat
deriving DecidableEq, Repr

/-- Modelled from the spec: the abstract keyed store behind the generic etcd
registry (pkg/registry/generic/etcd and pkg/storage are not under src/):
the stored objects, a monotone global version counter, and the ordered watch
event log of the resource kind. -/
structure Store where
  objs : List ConfigData
  counter : Nat
  events : List WatchEvent
deriving DecidableEq, Repr

/-- The store holding nothing, with the version counter at zero. -/
def emptyStore : Store := { objs := [], counter := 0, events := [] }

/-- Looks an object up by its namespace and name, the identity key of the
resource kind. -/
def findObj (s : Store) (ns nm : String) : Option ConfigData :=
  s.objs.find? (fun c => c.nspace = ns && c.name = nm)

/-- Modelled from the spec: the generic registry Create pipeline
(rest.BeforeCreate plus the etcd storage create; neither is under src/),
parameterized by the strategy PrepareForCreate hook so that both strategy
variants in src/ can be run through it. Per spec section 4.1: prepare, then
validate (Invalid on a non-empty error list), then store, failing with
AlreadyExists when the (namespace, name) key is occupied; on success the store
assigns the next version, records it in the object, and appends one ADDED
event to the watch log. -/
def registryCreateWith (prepare : ConfigData → ConfigData) (s : Store)
    (obj : ConfigData) : Store × Except KErr ConfigData :=
  let p := prepare obj
  if ValidateConfigData p ≠ [] then
    (s, Except.error KErr.invalid)
  else if (findObj s p.nspace p.name).isSome then
    (s, Except.error KErr.alreadyExists)
  else
    let v := s.counter + 1
    let stored := { p with resourceVersion := v }
    ({ objs := stored :: s.objs, counter := v,
       events := s.events ++ [{ etype := EventType.added, version := v }] },
     Except.ok stored)

/-- The Create operation of the registry wired with the extensions strategy
(etcd.go: CreateStrategy = configdata.Strategy of part_005). -/
def registryCreate (s : Store) (obj : ConfigData) : Store × Except KErr ConfigData :=
  registryCreateWith strategy.PrepareForCreate s obj

/-- Embedding of GetConfigData (part_001 lines 66-73 over the storage Get):
a read-only lookup, NotFound when the key is absent, no validation and no
state change. -/
def registryGet (s : Store) (ns nm : String) : Store × Except KErr ConfigData :=
  match findObj s ns nm with
  | some cfg => (s, Except.ok cfg)
  | none => (s, Except.error KErr.notFound)

/-- Modelled from the spec: the generic registry Update pipeline
(rest.BeforeUpdate plus etcd GuaranteedUpdate; neither is under src/),
parameterized by the two strategy policy switches. Per spec section 4.1:
an absent key is NotFound (never an implicit create) when create-on-update is
disallowed; a caller resourceVersion differing from the stored one is a
Conflict unless unconditional update is allowed; otherwise the new object is
re-validated like Create, and on success the store assigns the next version
and appends one MODIFIED event. -/
def registryUpdateWith (unconditional allowCreate : Bool) (s : Store)
    (obj : ConfigData) : Store × Except KErr ConfigData :=
  match findObj s obj.nspace obj.name with
  | none =>
      if allowCreate then registryCreate s obj
      else (s, Except.error KErr.notFound)
  | some old =>
      if obj.resourceVersion ≠ old.resourceVersion && !unconditional then
        (s, Except.error KErr.conflict)
      else if strategy.ValidateUpdate obj old ≠ [] then
        (s, Except.error KErr.invalid)
      else
        let v := s.counter + 1
        let stored := { obj with resourceVersion := v }
        ({ objs := s.objs.map
             (fun c => if c.nspace = obj.nspace && c.name = obj.name then stored else c),
           counter := v,
           events := s.events ++ [{ etype := EventType.modified, version := v }] },
         Except.ok stored)

/-- The Update operation of the registry wired with the policies the ConfigData
strategy configures in source: AllowUnconditionalUpdate() = true and
AllowCreateOnUpdate() = false. -/
def registryUpdate (s : Store) (obj : ConfigData) : Store × Except KErr ConfigData :=
  registryUpdateWith strategy.AllowUnconditionalUpdate strategy.AllowCreateOnUpdate s obj

/-- Modelled from the spec: the Delete pipeline over the etcd storage (not
under src/): NotFound when absent, otherwise the object is removed, the
counter advances and one DELETED event is appended (spec sections 4.1). -/
def registryDelete (s : Store) (ns nm : String) : Store × Except KErr Unit :=
  match findObj s ns nm with
  | none => (s, Except.error KErr.notFound)
  | some _ =>
      let v := s.counter + 1
      ({ objs := s.objs.filter (fun c => !(c.nspace = ns && c.name = nm)),
         counter := v,
         events := s.events ++ [{ etype := EventType.deleted, version := v }] },
       Except.ok ())

/-- Embedding of ListConfigDatas (part_001 lines 53-60) over the generic etcd
List loop, which is modelled from the spec (not under src/): the objects of the
context namespace surviving the per-object predicate of matchConfigData, read
out without validation and without touching the store. -/
def registryList (s : Store) (ns : String) (label field : Selector) :
    Store × List ConfigData :=
  (s, s.objs.filter (fun c => c.nspace = ns && matchConfigData label field c))

/-- Modelled from the spec: a watch connection entering Streaming from a
caller-supplied starting resourceVersion replays all retained events strictly
after that version, in log order (spec section 4.2; the watch cache is not
under src/). -/
def watchFrom (rv : Nat) (s : Store) : List WatchEvent :=
  s.events.filter (fun e => rv < e.version)

/-- Embedding of rest.CheckGeneratedNameError as pinned down by
TestCheckGeneratedNameError (part_006 lines 29-44, strategy_test.go): any error
other than AlreadyExists passes through unchanged; AlreadyExists passes through
unchanged when the object carries no GenerateName prefix, and becomes the
retryable ServerTimeout (try again later) error when it does. The function body
itself is not under src/, so it is modelled from that test and spec 4.1. -/
def CheckGeneratedNameError (e : KErr) (obj : ConfigData) : KErr :=
  match e with
  | KErr.alreadyExists =>
      if obj.generateName = "" then KErr.alreadyExists else KErr.serverTimeout
  | other => other

/-- Embedding of api.SimpleNameGenerator (referenced at part_000 line 41 and
part_005 line 41, not under src/): appends a random suffix to the generation
prefix; the suffix is passed in explicitly here in place of the random source. -/
def generateNameFrom (pfx sfx : String) : String := pfx ++ sfx

/-- Modelled from the spec: the Create path with name generation (spec section
4.1: when the caller supplies a generation prefix instead of a full name, the
registry appends a random suffix and retries once on collision before
surfacing AlreadyExists through CheckGeneratedNameError as a retryable
signal). The two suffixes the random source would produce are explicit
arguments. A Create with a full name goes straight through, its error mapped
by CheckGeneratedNameError, which leaves it unchanged. -/
def registryCreateGenerated (s : Store) (obj : ConfigData) (sfx1 sfx2 : String) :
    Store × Except KErr ConfigData :=
  if obj.name = "" ∧ obj.generateName ≠ "" then
    let r1 := registryCreate s { obj with name := generateNameFrom obj.generateName sfx1 }
    match r1.2 with
    | Except.error KErr.alreadyExists =>
        let r2 := registryCreate s { obj with name := generateNameFrom obj.generateName sfx2 }
        match r2.2 with
        | Except.error e => (s, Except.error (CheckGeneratedNameError e obj))
        | _ => r2
    | Except.error e => (s, Except.error (CheckGeneratedNameError e obj))
    | _ => r1
  else
    let r := registryCreate s obj
    match r.2 with
    | Except.error e => (s, Except.error (CheckGeneratedNameError e obj))
    | _ => r

/-- One HTTP request as assembled by the typed client request builder of
part_007: verb, namespace, resource, name, optional subresource, and the body
object sent unmodified. -/
structure RestRequest where
  verb : String
  nspace : String
  resource : String
  name : String
  subresource : String
  body : ConfigData
deriving DecidableEq, Repr

/-- Outcome of a typed client call before transport: either a local error
returned without anything being sent, or exactly one request handed to the
transport. -/
inductive ClientCall where
  | localErr (msg : String)
  | sent (req : RestRequest)
deriving DecidableEq, Repr

/-- Embedding of configDatas.Update of the experimental typed client (part_007
lines 104-119): when the ResourceVersion of the new object is empty (length
zero, encoded 0 here) the method returns an error at once and never builds or
issues the PUT; otherwise it issues one PUT naming the object, with the object
as body, unmodified. -/
def configDatasUpdate (ns : String) (newCfg : ConfigData) : ClientCall :=
  if newCfg.resourceVersion = 0 then
    ClientCall.localErr "invalid update object, missing resource version"
  else
    ClientCall.sent
      { verb := "PUT", nspace := ns, resource := "configDatas",
        name := newCfg.name, subresource := "", body := newCfg }

/-- Embedding of configDatas.UpdateStatus of the experimental typed client
(part_007 lines 121-137): same empty-ResourceVersion guard, and on the send
path the PUT additionally targets the status subresource. -/
def configDatasUpdateStatus (ns : String) (newCfg : ConfigData) : ClientCall :=
  if newCfg.resourceVersion = 0 then
    ClientCall.localErr "invalid update object, missing resource version"
  else
    ClientCall.sent
      { verb := "PUT", nspace := ns, resource := "configDatas",
        name := newCfg.name, subresource := "status", body := newCfg }

/-- Embedding of the rktshim CLIConfig struct (part_003 lines 92-101). -/
structure CLIConfig where
  Debug : Bool := false
  Dir : String := ""
  LocalConfigDir : String := ""
  UserConfigDir : String := ""
  SystemConfigDir : String := ""
  InsecureOptions : String := ""
deriving DecidableEq, Repr

/-- Embedding of CLIConfig.Merge (part_003 lines 103-117), giving the value of
the receiver after the call. The Go body takes newCfgVal, a reflect.Value of
the newCfg parameter (a local copy, and one that is not addressable), walks its
fields, and for each one executes newCfgVal.FieldByName(...).Set(fieldValue):
every write targets a field of that same local copy, never a field of the
receiver cfg (the line also calls a Name method that reflect.Value does not
have, and Set on an unaddressable value; under any reading no field of the
receiver is assigned). The receiver therefore keeps all of its old field
values, so the result is cfg itself. -/
def CLIConfig.merge (cfg newCfg : CLIConfig) : CLIConfig := cfg

/-- Modelled from the spec: the intended last-writer-wins overlay of section
4.3, stated for the CLIConfig field set: every field of the later configuration
overwrites the corresponding field of the earlier one. -/
def CLIConfig.mergeSpec (cfg newCfg : CLIConfig) : CLIConfig := newCfg

deriving instance DecidableEq for Except

/-- One mutation against the registry, as in spec section 4.1: a Create, a
full-object Update, or a Delete of one resource. -/
inductive MutationOp where
  | createOp (cfg : ConfigData)
  | updateOp (cfg : ConfigData)
  | deleteOp (ns nm : String)
deriving DecidableEq, Repr

/-- The watch tag the registry emits for each kind of successful mutation. -/
def opTag : MutationOp → EventType
  | MutationOp.createOp _ => EventType.added
  | MutationOp.updateOp _ => EventType.modified
  | MutationOp.deleteOp _ _ => EventType.deleted

/-- Runs one mutation through the registry wired with the ConfigData strategy,
returning the resulting store and whether the mutation succeeded. -/
def applyOp (s : Store) : MutationOp → Store × Bool
  | MutationOp.createOp cfg =>
      let r := registryCreate s cfg
      (r.1, match r.2 with | Except.ok _ => true | Except.error _ => false)
  | MutationOp.updateOp cfg =>
      let r := registryUpdate s cfg
      (r.1, match r.2 with | Except.ok _ => true | Except.error _ => false)
  | MutationOp.deleteOp ns nm =>
      let r := registryDelete s ns nm
      (r.1, match r.2 with | Except.ok _ => true | Except.error _ => false)

/-- Runs a sequence of mutations left to right, keeping the store each step
leaves behind. -/
def runOps (s : Store) : List MutationOp → Store
  | [] => s
  | op :: rest => runOps (applyOp s op).1 rest

/-- Decides whether every mutation of the sequence succeeds when the sequence
is run left to right from the given store. -/
def runOk (s : Store) : List MutationOp → Bool
  | [] => true
  | op :: rest => (applyOp s op).2 && runOk (applyOp s op).1 rest

/-- Decides that the versions of an event list are strictly increasing and all
strictly above the bound. -/
def chainIncr (b : Nat) : List WatchEvent → Bool
  | [] => true
  | e :: es => (b < e.version) && chainIncr e.version es

/-- Decides that every event version of the list is at most the bound. -/
def eventsBelow (n : Nat) (es : List WatchEvent) : Bool :=
  es.all (fun e => e.version ≤ n)

/-- Well-formedness of a store: the watch log versions grow strictly from a
positive start and never exceed the global counter. Every reachable store
satisfies this and every registry mutation preserves it. -/
def StoreWF (s : Store) : Bool :=
  chainIncr 0 s.events && eventsBelow s.counter s.events

/-- Concrete resource of the round-trip claim: the valid object of the etcd
test file (part_008 lines 37-47), name foo in namespace default with one data
entry test = data. -/
def cfgRoundTrip : ConfigData :=
  { name := "foo", nspace := "default", generateName := "",
    resourceVersion := 0, labels := [], data := [("test", "data")] }

/-- Store after creating cfgRoundTrip through the extensions pipeline. -/
def storeOne : Store := (registryCreate emptyStore cfgRoundTrip).1

/-- The object as stored by that create: version 1 assigned. -/
def cfgStored : ConfigData := { cfgRoundTrip with resourceVersion := 1 }

/-- A stale update payload for the version-check witness: same identity, stale
caller version 99. -/
def cfgStale : ConfigData := { cfgRoundTrip with resourceVersion := 99 }

/-- A resource whose single data key is the pattern-violating example of the
spec and of TestBeforeUpdate (part_006 line 127). -/
def cfgBadKey : ConfigData :=
  { name := "valid", nspace := "default", generateName := "",
    resourceVersion := 0, labels := [], data := [("%%#@$invalidKey", "validValue2")] }

/-- An object carrying only a generation prefix, as in TestCreate of part_008
(GenerateName foo-). -/
def cfgGenOnly : ConfigData :=
  { name := "", nspace := "default", generateName := "foo-",
    resourceVersion := 0, labels := [], data := [] }

/-- A store in which both candidate generated names foo-x and foo-y are taken. -/
def storeCollideBoth : Store :=
  { objs := [{ cfgGenOnly with name := "foo-x", generateName := "", resourceVersion := 1 },
             { cfgGenOnly with name := "foo-y", generateName := "", resourceVersion := 2 }],
    counter := 2, events := [] }

/-- A store in which only the first candidate generated name foo-x is taken. -/
def storeCollideFirst : Store :=
  { objs := [{ cfgGenOnly with name := "foo-x", generateName := "", resourceVersion := 1 }],
    counter := 1, events := [] }

/-- A fully named object colliding with the bar object already stored. -/
def cfgPlainBar : ConfigData :=
  { name := "bar", nspace := "default", generateName := "",
    resourceVersion := 0, labels := [], data := [] }

/-- A store already holding the bar object. -/
def storeBar : Store :=
  { objs := [{ cfgPlainBar with resourceVersion := 1 }], counter := 1, events := [] }

/-- Client-side witness object with an empty (unset) resourceVersion. -/
def cfgNoVersion : ConfigData :=
  { name := "cfg1", nspace := "default", generateName := "",
    resourceVersion := 0, labels := [], data := [("k1", "v1")] }

/-- Client-side witness object carrying resourceVersion 7. -/
def cfgWithVersion : ConfigData := { cfgNoVersion with resourceVersion := 7 }

/-- Mutation sequence of the watch witness: create, update, delete of the one
resource cfg1. -/
def opsWatch : List MutationOp :=
  [MutationOp.createOp cfgNoVersion,
   MutationOp.updateOp { cfgNoVersion with data := [("k1", "v2")] },
   MutationOp.deleteOp "default" "cfg1"]

/-- Earlier CLI configuration of the merge claim, binding Dir to 1. -/
def cliDirOne : CLIConfig := { Dir := "1" }

/-- Later CLI configuration of the merge claim, binding Dir to 2. -/
def cliDirTwo : CLIConfig := { Dir := "2" }

/-- C1: the round-trip claim fails on the experimental strategy: Create runs
PrepareForCreate, which replaces the caller Data map by an empty one, so the
created object and the subsequent Get of its name carry an empty data map
although the input cfgRoundTrip has a non-empty one; the assigned
resourceVersion 1 is non-empty (non-zero). -/
theorem createExperimental_discards_data :
    (registryCreateWith strategy.experimentalPrepareForCreate emptyStore cfgRoundTrip).2
      = Except.ok { cfgRoundTrip with resourceVersion := 1, data := [] } ∧
    (registryGet (registryCreateWith strategy.experimentalPrepareForCreate
        emptyStore cfgRoundTrip).1 "default" "foo").2
      = Except.ok { cfgRoundTrip with resourceVersion := 1, data := [] } ∧
    cfgRoundTrip.data ≠ [] ∧
    (registryCreate emptyStore cfgRoundTrip).2
      = Except.ok { cfgRoundTrip with resourceVersion := 1 } := by
  refine ⟨by decide, by decide, by decide, by decide⟩

/-- C5: ValidateUpdate of the strategy validates the full new object with the
same validation function Create uses, for every pair of objects. -/
theorem validateUpdate_eq_validate (newCfg oldCfg : ConfigData) :
    strategy.ValidateUpdate newCfg oldCfg = strategy.Validate newCfg := rfl

/-- C9: the merge claim fails on the code: CLIConfig.Merge writes every field
back onto its own argument copy, so the receiver keeps its earlier binding;
for Dir bound to 1 then 2 the merged configuration still holds 1 where the
spec overlay demands 2. -/
theorem cliMerge_keeps_receiver :
    CLIConfig.merge cliDirOne cliDirTwo = cliDirOne ∧
    (CLIConfig.merge cliDirOne cliDirTwo).Dir = "1" ∧
    (CLIConfig.mergeSpec cliDirOne cliDirTwo).Dir = "2" ∧
    CLIConfig.merge cliDirOne cliDirTwo ≠ CLIConfig.mergeSpec cliDirOne cliDirTwo := by
  refine ⟨rfl, by decide, by decide, by decide⟩

/-- C10: the typed client Update and UpdateStatus return a local error and send
nothing when the resourceVersion of the object is empty (0 in this encoding),
and send exactly one PUT carrying the object unmodified otherwise. -/
theorem clientUpdate_requires_version (ns : String) (cfg : ConfigData) :
    (cfg.resourceVersion = 0 →
      configDatasUpdate ns cfg
          = ClientCall.localErr "invalid update object, missing resource version" ∧
      configDatasUpdateStatus ns cfg
          = ClientCall.localErr "invalid update object, missing resource version") ∧
    (cfg.resourceVersion ≠ 0 →
      configDatasUpdate ns cfg
          = ClientCall.sent { verb := "PUT", nspace := ns, resource := "configDatas",
                              name := cfg.name, subresource := "", body := cfg } ∧
      configDatasUpdateStatus ns cfg
          = ClientCall.sent { verb := "PUT", nspace := ns, resource := "configDatas",
                              name := cfg.name, subresource := "status", body := cfg }) := by
  constructor
  · intro h
    simp [configDatasUpdate, configDatasUpdateStatus, h]
  · intro h
    simp [configDatasUpdate, configDatasUpdateStatus, h]

/-- C10 witness: at resourceVersion 0 both methods return the local error, and
at resourceVersion 7 both send the PUT. -/
theorem clientUpdate_requires_version_witness :
    (configDatasUpdate "default" cfgNoVersion
        = ClientCall.localErr "invalid update object, missing resource version" ∧
     configDatasUpdateStatus "default" cfgNoVersion
        = ClientCall.localErr "invalid update object, missing resource version") ∧
    (configDatasUpdate "default" cfgWithVersion
        = ClientCall.sent { verb := "PUT", nspace := "default", resource := "configDatas",
                            name := cfgWithVersion.name, subresource := "",
                            body := cfgWithVersion } ∧
     configDatasUpdateStatus "default" cfgWithVersion
        = ClientCall.sent { verb := "PUT", nspace := "default", resource := "configDatas",
                            name := cfgWithVersion.name, subresource := "status",
                            body := cfgWithVersion }) :=
  ⟨(clientUpdate_requires_version "default" cfgNoVersion).1 (by decide),
   (clientUpdate_requires_version "default" cfgWithVersion).2 (by decide)⟩

/-- C3: an Update naming an absent (namespace, name) pair fails with NotFound
and leaves the store untouched; the strategy disallows create-on-update. -/
theorem update_no_create (s : Store) (obj : ConfigData)
    (habsent : findObj s obj.nspace obj.name = none) :
    registryUpdate s obj = (s, Except.error KErr.notFound) ∧
    strategy.AllowCreateOnUpdate = false := by
  refine ⟨?_, rfl⟩
  simp [registryUpdate, registryUpdateWith, habsent, strategy.AllowCreateOnUpdate]

/-- C3 witness: updating cfg1 against the empty store is NotFound and the
store stays empty. -/
theorem update_no_create_witness :
    registryUpdate emptyStore cfgNoVersion = (emptyStore, Except.error KErr.notFound) ∧
    strategy.AllowCreateOnUpdate = false :=
  update_no_create emptyStore cfgNoVersion (by decide)

/-- C2: with the object present, an Update whose caller version differs from
the stored one is a Conflict whenever unconditional update is off; the
ConfigData strategy turns unconditional update on, and with it every valid
Update of a stored object succeeds and assigns a version strictly greater
than the stored one, regardless of the caller version. -/
theorem update_version_check (uncond : Bool) (s : Store) (obj old : ConfigData)
    (hfound : findObj s obj.nspace obj.name = some old) :
    (obj.resourceVersion ≠ old.resourceVersion → uncond = false →
      registryUpdateWith uncond strategy.AllowCreateOnUpdate s obj
        = (s, Except.error KErr.conflict)) ∧
    strategy.AllowUnconditionalUpdate = true ∧
    (ValidateConfigData obj = [] → old.resourceVersion ≤ s.counter →
      (registryUpdate s obj).2 = Except.ok { obj with resourceVersion := s.counter + 1 } ∧
      old.resourceVersion < s.counter + 1) := by
  refine ⟨?_, rfl, ?_⟩
  · intro hne huncond
    subst huncond
    simp [registryUpdateWith, hfound, hne]
  · intro hval hle
    refine ⟨?_, Nat.lt_succ_of_le hle⟩
    simp [registryUpdate, registryUpdateWith, hfound, strategy.AllowUnconditionalUpdate,
      strategy.ValidateUpdate, hval]

/-- C2 witness: on the store holding foo at version 1, an update with stale
caller version 99 conflicts when unconditional update is off, and with the
strategy as configured it succeeds and assigns version 2, strictly above 1. -/
theorem update_version_check_witness :
    (registryUpdateWith false strategy.AllowCreateOnUpdate storeOne cfgStale
        = (storeOne, Except.error KErr.conflict)) ∧
    strategy.AllowUnconditionalUpdate = true ∧
    ((registryUpdate storeOne cfgStale).2
        = Except.ok { cfgStale with resourceVersion := storeOne.counter + 1 } ∧
      cfgStored.resourceVersion < storeOne.counter + 1) :=
  ⟨(update_version_check false storeOne cfgStale cfgStored (by decide)).1
      (by decide) rfl,
   rfl,
   (update_version_check true storeOne cfgStale cfgStored (by decide)).2.2
      (by decide) (by decide)⟩

/-- C4: validation returns an empty error list exactly when the name and the
namespace pass DNS-label-style validation and every data key is nonempty and
matches the allowed pattern; whenever the list is non-empty, Create fails
with Invalid and stores nothing, so a pattern-violating key is rejected, never
dropped. -/
theorem validate_keys_iff (cfg : ConfigData) :
    (ValidateConfigData cfg = [] ↔
      isDNSLabel cfg.name = true ∧ isDNSLabel cfg.nspace = true ∧
        ∀ kv ∈ cfg.data, isValidConfigKey kv.1 = true) ∧
    (∀ s : Store, ValidateConfigData cfg ≠ [] →
      registryCreate s cfg = (s, Except.error KErr.invalid)) := by
  constructor
  · cases hn : isDNSLabel cfg.name <;> cases hns : isDNSLabel cfg.nspace <;>
      simp [ValidateConfigData, hn, hns, List.filterMap_eq_nil_iff]
  · intro s h
    simp [registryCreate, registryCreateWith, strategy.PrepareForCreate, h]

/-- C4 witness: the resource whose data key is the spec example of a
disallowed key fails validation, and its Create against the empty store
returns Invalid leaving the store empty. -/
theorem validate_keys_iff_witness :
    registryCreate emptyStore cfgBadKey = (emptyStore, Except.error KErr.invalid) :=
  (validate_keys_iff cfgBadKey).2 emptyStore (by decide)

/-- C6: List is read-only and filters exactly: it returns the store unchanged
and yields precisely the stored objects of the context namespace whose labels
satisfy the label selector and whose derived field set satisfies the field
selector, the predicate being evaluated per object. -/
theorem list_filters_exactly (s : Store) (ns : String) (label field : Selector) :
    (registryList s ns label field).1 = s ∧
    ∀ cfg : ConfigData,
      cfg ∈ (registryList s ns label field).2 ↔
        cfg ∈ s.objs ∧ cfg.nspace = ns ∧ matchConfigData label field cfg = true := by
  refine ⟨rfl, fun cfg => ?_⟩
  simp [registryList, List.mem_filter, and_assoc]

/-- C7: name generation: with a generation prefix and no full name, a valid
Create whose two candidate generated names both collide surfaces the retryable
ServerTimeout signal instead of AlreadyExists; when only the first candidate
collides, the single retry succeeds with the second generated name; a Create
with a full name and no prefix surfaces AlreadyExists unchanged. -/
theorem generated_name_create (s : Store) (obj : ConfigData) (sfx1 sfx2 : String) :
    (obj.name = "" → obj.generateName ≠ "" →
      (findObj s obj.nspace (generateNameFrom obj.generateName sfx1)).isSome = true →
      (findObj s obj.nspace (generateNameFrom obj.generateName sfx2)).isSome = true →
      ValidateConfigData { obj with name := generateNameFrom obj.generateName sfx1 } = [] →
      ValidateConfigData { obj with name := generateNameFrom obj.generateName sfx2 } = [] →
      registryCreateGenerated s obj sfx1 sfx2 = (s, Except.error KErr.serverTimeout)) ∧
    (obj.name = "" → obj.generateName ≠ "" →
      (findObj s obj.nspace (generateNameFrom obj.generateName sfx1)).isSome = true →
      findObj s obj.nspace (generateNameFrom obj.generateName sfx2) = none →
      ValidateConfigData { obj with name := generateNameFrom obj.generateName sfx1 } = [] →
      ValidateConfigData { obj with name := generateNameFrom obj.generateName sfx2 } = [] →
      (registryCreateGenerated s obj sfx1 sfx2).2
        = Except.ok { obj with name := generateNameFrom obj.generateName sfx2,
                               resourceVersion := s.counter + 1 }) ∧
    (obj.generateName = "" →
      (findObj s obj.nspace obj.name).isSome = true →
      ValidateConfigData obj = [] →
      registryCreateGenerated s obj sfx1 sfx2 = (s, Except.error KErr.alreadyExists)) := by
  refine ⟨?_, ?_, ?_⟩
  · intro h1 h2 h3 h4 h5 h6
    simp only [generateNameFrom] at h3 h4 h5 h6
    simp [registryCreateGenerated, h1, h2, registryCreate, registryCreateWith,
      strategy.PrepareForCreate, generateNameFrom, h3, h4, h5, h6,
      CheckGeneratedNameError]
  · intro h1 h2 h3 h4 h5 h6
    simp only [generateNameFrom] at h3 h4 h5 h6
    simp [registryCreateGenerated, h1, h2, registryCreate, registryCreateWith,
      strategy.PrepareForCreate, generateNameFrom, h3, h4, h5, h6,
      CheckGeneratedNameError]
  · intro h1 h2 h3
    simp [registryCreateGenerated, h1, registryCreate, registryCreateWith,
      strategy.PrepareForCreate, h2, h3, CheckGeneratedNameError]

/-- C7 witness: with both generated names foo-x and foo-y taken the result is
ServerTimeout; with only foo-x taken the retry creates foo-y; a plain-name
collision on bar stays AlreadyExists. -/
theorem generated_name_create_witness :
    registryCreateGenerated storeCollideBoth cfgGenOnly "x" "y"
        = (storeCollideBoth, Except.error KErr.serverTimeout) ∧
    (registryCreateGenerated storeCollideFirst cfgGenOnly "x" "y").2
        = Except.ok { cfgGenOnly with name := generateNameFrom cfgGenOnly.generateName "y",
                                      resourceVersion := storeCollideFirst.counter + 1 } ∧
    registryCreateGenerated storeBar cfgPlainBar "x" "y"
        = (storeBar, Except.error KErr.alreadyExists) :=
  ⟨(generated_name_create storeCollideBoth cfgGenOnly "x" "y").1
      rfl (by decide) (by decide) (by decide) (by decide) (by decide),
   (generated_name_create storeCollideFirst cfgGenOnly "x" "y").2.1
      rfl (by decide) (by decide) (by decide) (by decide) (by decide),
   (generated_name_create storeBar cfgPlainBar "x" "y").2.2
      rfl (by decide) (by decide)⟩

/-- Case analysis of Create: either it fails leaving the store untouched, or
it succeeds, advancing the counter by one and appending exactly one ADDED
event carrying the new counter value. -/
theorem registryCreate_cases (s : Store) (cfg : ConfigData) :
    (∃ e, registryCreate s cfg = (s, Except.error e)) ∨
    (∃ c, registryCreate s cfg =
      ({ objs := c :: s.objs, counter := s.counter + 1,
         events := s.events ++ [{ etype := EventType.added, version := s.counter + 1 }] },
       Except.ok c)) := by
  simp only [registryCreate, registryCreateWith, strategy.PrepareForCreate]
  split
  · exact Or.inl ⟨_, rfl⟩
  · split
    · exact Or.inl ⟨_, rfl⟩
    · exact Or.inr ⟨_, rfl⟩

/-- Case analysis of Update: either it fails leaving the store untouched, or
it succeeds, advancing the counter by one and appending exactly one MODIFIED
event carrying the new counter value. -/
theorem registryUpdate_cases (s : Store) (cfg : ConfigData) :
    (∃ e, registryUpdate s cfg = (s, Except.error e)) ∨
    (∃ c s2, registryUpdate s cfg = (s2, Except.ok c) ∧
      s2.events = s.events ++ [{ etype := EventType.modified, version := s.counter + 1 }] ∧
      s2.counter = s.counter + 1) := by
  simp only [registryUpdate, registryUpdateWith, strategy.AllowCreateOnUpdate,
    strategy.AllowUnconditionalUpdate]
  split
  · exact Or.inl ⟨KErr.notFound, by simp⟩
  · rename_i old heq
    have hcond :
        ¬ ((decide (cfg.resourceVersion ≠ old.resourceVersion) && !true) = true) := by
      simp
    rw [if_neg hcond]
    by_cases hv : strategy.ValidateUpdate cfg old ≠ []
    · rw [if_pos hv]
      exact Or.inl ⟨_, rfl⟩
    · rw [if_neg hv]
      exact Or.inr ⟨_, _, rfl, rfl, rfl⟩

/-- Case analysis of Delete: either it fails leaving the store untouched, or
it succeeds, advancing the counter by one and appending exactly one DELETED
event carrying the new counter value. -/
theorem registryDelete_cases (s : Store) (ns nm : String) :
    (∃ e, registryDelete s ns nm = (s, Except.error e)) ∨
    (∃ s2, registryDelete s ns nm = (s2, Except.ok ()) ∧
      s2.events = s.events ++ [{ etype := EventType.deleted, version := s.counter + 1 }] ∧
      s2.counter = s.counter + 1) := by
  simp only [registryDelete]
  split
  · exact Or.inl ⟨_, rfl⟩
  · exact Or.inr ⟨_, rfl, rfl, rfl⟩

/-- A successful mutation appends exactly one event, tagged after the mutation
kind and carrying the advanced counter; a failed one leaves the store as it
was. -/
theorem applyOp_events (s : Store) (op : MutationOp) :
    ((applyOp s op).2 = true →
      (applyOp s op).1.events
          = s.events ++ [{ etype := opTag op, version := s.counter + 1 }] ∧
      (applyOp s op).1.counter = s.counter + 1) ∧
    ((applyOp s op).2 = false → (applyOp s op).1 = s) := by
  cases op with
  | createOp cfg =>
      rcases registryCreate_cases s cfg with ⟨e, he⟩ | ⟨c, hc⟩
      · simp [applyOp, he]
      · simp [applyOp, hc, opTag]
  | updateOp cfg =>
      rcases registryUpdate_cases s cfg with ⟨e, he⟩ | ⟨c, s2, hc, hev, hcn⟩
      · simp [applyOp, he]
      · simp [applyOp, hc, hev, hcn, opTag]
  | deleteOp ns nm =>
      rcases registryDelete_cases s ns nm with ⟨e, he⟩ | ⟨s2, hc, hev, hcn⟩
      · simp [applyOp, he]
      · simp [applyOp, hc, hev, hcn, opTag]

/-- Appending an event one above the bound of a strictly increasing log keeps
it strictly increasing. -/
theorem chainIncr_append (t : EventType) (es : List WatchEvent) :
    ∀ b n : Nat, chainIncr b es = true → eventsBelow n es = true → b ≤ n →
      chainIncr b (es ++ [{ etype := t, version := n + 1 }]) = true := by
  induction es with
  | nil =>
      intro b n _ _ hbn
      simp [chainIncr]
      omega
  | cons f fs ih =>
      intro b n hch hbel hbn
      simp only [chainIncr, Bool.and_eq_true, decide_eq_true_eq] at hch
      simp only [eventsBelow, List.all_cons, Bool.and_eq_true, decide_eq_true_eq] at hbel
      simp only [List.cons_append, chainIncr, Bool.and_eq_true, decide_eq_true_eq]
      exact ⟨hch.1, ih f.version n hch.2 (by
        simp only [eventsBelow, List.all_eq_true, decide_eq_true_eq]
        intro e he
        have := List.all_eq_true.mp hbel.2 e he
        simpa using this) hbel.1⟩

/-- Every version of a strictly increasing log is strictly above the bound. -/
theorem chainIncr_all_gt (es : List WatchEvent) :
    ∀ b : Nat, chainIncr b es = true → ∀ e ∈ es, b < e.version := by
  induction es with
  | nil => intro b _ e he; cases he
  | cons f fs ih =>
      intro b hch e he
      simp only [chainIncr, Bool.and_eq_true, decide_eq_true_eq] at hch
      rcases List.mem_cons.mp he with rfl | hmem
      · exact hch.1
      · exact Nat.lt_trans hch.1 (ih f.version hch.2 e hmem)

/-- Every reachable store is well-formed: each mutation preserves the
well-formedness of the watch log. -/
theorem StoreWF_applyOp (s : Store) (op : MutationOp) (h : StoreWF s = true) :
    StoreWF (applyOp s op).1 = true := by
  cases hflag : (applyOp s op).2 with
  | false => rw [(applyOp_events s op).2 hflag]; exact h
  | true =>
      obtain ⟨hev, hcn⟩ := (applyOp_events s op).1 hflag
      simp only [StoreWF, Bool.and_eq_true] at h
      simp only [StoreWF, Bool.and_eq_true, hev, hcn]
      constructor
      · exact chainIncr_append _ _ 0 s.counter h.1 h.2 (Nat.zero_le _)
      · simp only [eventsBelow, List.all_append, List.all_cons, List.all_nil,
          Bool.and_eq_true, decide_eq_true_eq]
        refine ⟨?_, Nat.le_refl _, trivial⟩
        simp only [eventsBelow, List.all_eq_true, decide_eq_true_eq] at h ⊢
        intro e he
        exact Nat.le_succ_of_le (h.2 e he)

/-- Running a fully successful mutation sequence from a well-formed store
appends exactly one event per mutation, tagged in order after the mutations,
and preserves well-formedness. -/
theorem runOps_events (ops : List MutationOp) :
    ∀ s : Store, runOk s ops = true → StoreWF s = true →
      (runOps s ops).events.map WatchEvent.etype
          = s.events.map WatchEvent.etype ++ ops.map opTag ∧
      StoreWF (runOps s ops) = true := by
  induction ops with
  | nil => intro s _ hwf; simp [runOps, hwf]
  | cons op rest ih =>
      intro s h hwf
      simp only [runOk, Bool.and_eq_true] at h
      obtain ⟨hev, hcn⟩ := (applyOp_events s op).1 h.1
      obtain ⟨hm, hw⟩ := ih (applyOp s op).1 h.2 (StoreWF_applyOp s op hwf)
      refine ⟨?_, by simpa [runOps] using hw⟩
      simp only [runOps] at hm ⊢
      rw [hm, hev]
      simp [opTag]

/-- A watch started at version zero on a log of positive strictly increasing
versions replays the whole log. -/
theorem watchFrom_zero (s : Store) (h : chainIncr 0 s.events = true) :
    watchFrom 0 s = s.events := by
  simp only [watchFrom]
  rw [List.filter_eq_self]
  intro e he
  simpa using chainIncr_all_gt s.events 0 h e he

/-- C8: for every fully successful sequence of N mutations run from the empty
store, a watch connection started at resourceVersion 0 receives exactly N
events, one per mutation with the tag of that mutation kind in order, and the
event versions are strictly increasing. -/
theorem watch_ordering (ops : List MutationOp) (h : runOk emptyStore ops = true) :
    (watchFrom 0 (runOps emptyStore ops)).length = ops.length ∧
    (watchFrom 0 (runOps emptyStore ops)).map WatchEvent.etype = ops.map opTag ∧
    chainIncr 0 (watchFrom 0 (runOps emptyStore ops)) = true := by
  obtain ⟨hm, hw⟩ := runOps_events ops emptyStore h (by decide)
  have hchain : chainIncr 0 (runOps emptyStore ops).events = true := by
    simp only [StoreWF, Bool.and_eq_true] at hw
    exact hw.1
  rw [watchFrom_zero _ hchain]
  refine ⟨?_, ?_, hchain⟩
  · have hlen := congrArg List.length hm
    simpa [emptyStore] using hlen
  · simpa [emptyStore] using hm

/-- C8 witness: the create, update, delete sequence on resource cfg1 succeeds
from the empty store and the watch from version 0 delivers exactly its three
events, tagged ADDED, MODIFIED, DELETED, in strictly increasing version
order. -/
theorem watch_ordering_witness :
    (watchFrom 0 (runOps emptyStore opsWatch)).length = opsWatch.length ∧
    (watchFrom 0 (runOps emptyStore opsWatch)).map WatchEvent.etype
        = opsWatch.map opTag ∧
    chainIncr 0 (watchFrom 0 (runOps emptyStore opsWatch)) = true :=
  watch_ordering opsWatch (by decide)
